import Mathlib

/-!
Shallow embedding of the in-memory score store of
`src/backend/app/database.py` (class `MockDatabase`) together with the
signup route of `src/backend/app/routers/auth.py`, and theorems checking
the specification's claims about ranking, filtering, limits, duplicate
handling and round-trips against these definitions.

Modelling conventions:
* Python dicts are insertion-ordered association lists (CPython dicts
  preserve insertion order, and assigning to an existing key keeps the
  key's position while replacing its value).
* Python ints are `Int` (scores, timestamps, limits); ids are `Nat`.
* The bcrypt hashing performed by the external `passlib` collaborator is
  abstracted: `create_user` stores the caller-supplied string unchanged in
  `password_hash`; no claim inspects the hash's value.
* The wall clock read by `datetime.now()` is passed in explicitly as a
  `now` argument where the source defaults a missing timestamp to it.
* Exceptions become an `Except` value paired with the post-call state, so
  that state changes made before a raise (the source increments
  `next_score_id` before its user check) stay observable.
-/

/-- `GameMode` from `app/models.py`: a two-value string enum with values
`"wall"` and `"pass"`; both members are truthy non-empty strings. -/
inductive GameMode where
  | wall
  | pass
deriving DecidableEq

/-- The user dict built in `MockDatabase.create_user`:
`{"id", "username", "email", "password_hash"}`. -/
structure UserRec where
  id : Nat
  username : String
  email : String
  password_hash : String
deriving DecidableEq

/-- The score dict built in `MockDatabase.create_score`:
`{"id", "userId", "username", "score", "mode", "timestamp"}`; `rank` is
`none` while the `"rank"` key is absent and `some r` once `get_scores` has
written `score["rank"] = r` into the dict. -/
structure ScoreEntry where
  id : Nat
  userId : Nat
  username : String
  score : Int
  mode : GameMode
  timestamp : Int
  rank : Option Nat
deriving DecidableEq

/-- The mutable state of a `MockDatabase` instance: `self.users` (keyed by
the record's own `id` field), the two lookup indexes `self.users_by_email`
and `self.users_by_username`, `self.scores` (keyed by the entry's `id`),
and the two id counters. -/
structure MockDB where
  users : List UserRec
  users_by_email : List (String × Nat)
  users_by_username : List (String × Nat)
  scores : List ScoreEntry
  next_user_id : Nat
  next_score_id : Nat
deriving DecidableEq

/-- Python dict assignment `d[k] = v` on a string-keyed index: replace the
value at an existing key in place, else append the new binding. -/
def dictInsert (l : List (String × Nat)) (k : String) (v : Nat) : List (String × Nat) :=
  match l with
  | [] => [(k, v)]
  | (k', v') :: rest => if k' = k then (k', v) :: rest else (k', v') :: dictInsert rest k v

/-- Python dict read `d.get(k)` on a string-keyed index. -/
def dictLookup (l : List (String × Nat)) (k : String) : Option Nat :=
  match l with
  | [] => none
  | (k', v) :: rest => if k' = k then some v else dictLookup rest k

/-- `self.users[user_id] = user`, where the dict key is always the
record's `id` field. -/
def usersInsert (l : List UserRec) (u : UserRec) : List UserRec :=
  match l with
  | [] => [u]
  | u' :: rest => if u'.id = u.id then u :: rest else u' :: usersInsert rest u

/-- `self.scores[score_id] = score_entry`, where the dict key is always
the entry's `id` field. -/
def scoresInsert (l : List ScoreEntry) (e : ScoreEntry) : List ScoreEntry :=
  match l with
  | [] => [e]
  | e' :: rest => if e'.id = e.id then e :: rest else e' :: scoresInsert rest e

namespace MockDatabase

/-- `MockDatabase.get_user_by_id`: `self.users.get(user_id)`. -/
def get_user_by_id (db : MockDB) (user_id : Nat) : Option UserRec :=
  db.users.find? (fun u => decide (u.id = user_id))

/-- `MockDatabase.get_user_by_email`; note the source's `if user_id:`
truthiness test, under which a (never occurring) id `0` reads as absent. -/
def get_user_by_email (db : MockDB) (email : String) : Option UserRec :=
  match dictLookup db.users_by_email email with
  | some user_id => if user_id ≠ 0 then get_user_by_id db user_id else none
  | none => none

/-- `MockDatabase.get_user_by_username`, same truthiness caveat. -/
def get_user_by_username (db : MockDB) (username : String) : Option UserRec :=
  match dictLookup db.users_by_username username with
  | some user_id => if user_id ≠ 0 then get_user_by_id db user_id else none
  | none => none

/-- `MockDatabase.email_exists`: `email in self.users_by_email`. -/
def email_exists (db : MockDB) (email : String) : Bool :=
  (dictLookup db.users_by_email email).isSome

/-- `MockDatabase.username_exists`: `username in self.users_by_username`. -/
def username_exists (db : MockDB) (username : String) : Bool :=
  (dictLookup db.users_by_username username).isSome

/-- `MockDatabase.create_user`: takes the next id, bumps the counter,
stores the record and points both lookup indexes at the new id. There is
no duplicate check at this level; the bcrypt hash of `password` is
abstracted to the plain string. -/
def create_user (db : MockDB) (username email password : String) : Nat × MockDB :=
  let user_id := db.next_user_id
  let user : UserRec :=
    { id := user_id, username := username, email := email, password_hash := password }
  (user_id,
    { users := usersInsert db.users user
      users_by_email := dictInsert db.users_by_email email user_id
      users_by_username := dictInsert db.users_by_username username user_id
      scores := db.scores
      next_user_id := db.next_user_id + 1
      next_score_id := db.next_score_id })

/-- Error kinds of the spec's taxonomy that the embedded operations can
signal: the mock's `ValueError(f"User {user_id} not found")` is the
taxonomy's `NotFoundError`, the signup route's HTTP 409 the taxonomy's
`ConflictError`. -/
inductive DbError where
  | notFound
  | conflict
deriving DecidableEq

/-- `MockDatabase.create_score`. Exactly as in the source, the score id
counter is incremented before the user-existence check, so it advances
even when the call fails; the failure adds no score record. `now` stands
for `int(datetime.now().timestamp() * 1000)`, used only when `timestamp`
is `None`. -/
def create_score (db : MockDB) (user_id : Nat) (score : Int) (mode : GameMode)
    (timestamp : Option Int) (now : Int) : Except DbError Nat × MockDB :=
  let score_id := db.next_score_id
  let db1 := { db with next_score_id := db.next_score_id + 1 }
  match get_user_by_id db1 user_id with
  | none => (Except.error DbError.notFound, db1)
  | some user =>
    let ts := match timestamp with
      | some t => t
      | none => now
    let entry : ScoreEntry :=
      { id := score_id, userId := user_id, username := user.username,
        score := score, mode := mode, timestamp := ts, rank := none }
    (Except.ok score_id, { db1 with scores := scoresInsert db1.scores entry })

/-- The mode filter of `get_scores`: `if mode:` is true exactly when a
mode was passed (both enum members are truthy), and then
`[s for s in scores if s["mode"] == mode.value]`. -/
def filteredScores (db : MockDB) (mode : Option GameMode) : List ScoreEntry :=
  match mode with
  | some m => db.scores.filter (fun s => decide (s.mode = m))
  | none => db.scores

/-- The comparison realised by
`scores.sort(key=lambda x: x["score"], reverse=True)`: `scoreDescLE a b`
says `a` may stay left of `b` in the descending order. -/
def scoreDescLE (a b : ScoreEntry) : Bool := decide (b.score ≤ a.score)

/-- Stable insertion step: place `e` before the first element it may
precede. On a tie `scoreDescLE e x` holds, so the element arriving from
further left in the input stays first — the same tie behaviour as the
source's stable Timsort with this key. -/
def insertScoreDesc (e : ScoreEntry) : List ScoreEntry → List ScoreEntry
  | [] => [e]
  | x :: xs => if scoreDescLE e x then e :: x :: xs else x :: insertScoreDesc e xs

/-- Stable sort, non-increasing by `score`: a stable sort is uniquely
determined by its comparator, so this insertion sort computes exactly the
list produced by the source's `scores.sort(key=..., reverse=True)`. -/
def sortScoresDesc : List ScoreEntry → List ScoreEntry
  | [] => []
  | x :: xs => insertScoreDesc x (sortScoresDesc xs)

/-- The list after the source's in-place descending stable sort. -/
def sortedScores (db : MockDB) (mode : Option GameMode) : List ScoreEntry :=
  sortScoresDesc (filteredScores db mode)

/-- `for index, score in enumerate(scores, start=1): score["rank"] = index`
viewed on the list: entry `i` (0-based) gets rank `i + 1`. -/
def addRanks (l : List ScoreEntry) : List ScoreEntry :=
  List.zipWith (fun s i => { s with rank := some i }) l (List.range' 1 l.length)

/-- The fully ranked, pre-limit sequence of `get_scores`. -/
def rankedScores (db : MockDB) (mode : Option GameMode) : List ScoreEntry :=
  addRanks (sortedScores db mode)

/-- Python list slicing `scores[:limit]` for an arbitrary int `limit`:
non-negative limits keep the first `limit` elements, negative limits drop
`-limit` elements from the end (clamped at the empty list). -/
def pySliceTo (l : List ScoreEntry) (limit : Int) : List ScoreEntry :=
  if 0 ≤ limit then l.take limit.toNat
  else l.take (l.length - (-limit).toNat)

/-- `if limit: scores = scores[:limit]` — both `None` and `0` are falsy,
so a limit of `0` leaves the sequence untruncated. -/
def applyLimit (l : List ScoreEntry) (limit : Option Int) : List ScoreEntry :=
  match limit with
  | none => l
  | some k => if k = 0 then l else pySliceTo l k

/-- The rank assignment in the source mutates the stored dicts through
aliasing: `list(self.scores.values())` holds references, so every stored
entry passing the mode filter receives the freshly computed rank, while
entries excluded by the filter keep any stale rank from an earlier call.
Stored ids are unique (a fresh counter value per insert), so recovering
the aliased update by id lookup is exact. -/
def writeBackRanks (stored ranked : List ScoreEntry) : List ScoreEntry :=
  stored.map (fun s =>
    match ranked.find? (fun r => decide (r.id = s.id)) with
    | some r => r
    | none => s)

/-- `MockDatabase.get_scores`: filter by mode, stable-sort descending by
score, write 1-based ranks (into the aliased stored dicts as well), then
truncate by `limit` if it is truthy. Returns the result list together
with the post-call store. -/
def get_scores (db : MockDB) (limit : Option Int) (mode : Option GameMode) :
    List ScoreEntry × MockDB :=
  let ranked := rankedScores db mode
  (applyLimit ranked limit, { db with scores := writeBackRanks db.scores ranked })

/-- `MockDatabase.get_user_scores`: the stored entries with the given
`userId`, in the store's insertion order (dict value order). -/
def get_user_scores (db : MockDB) (user_id : Nat) : List ScoreEntry :=
  db.scores.filter (fun s => decide (s.userId = user_id))

/-- Modelled from the spec: `getScoreById(id) -> entry | not-found` of the
Score Store contract (§4.2). No implementation named `get_score_by_id`
exists under the sources — only the contract declares it — so it is
modelled as the id lookup in the score store; the stored entry already
carries the owning user's username, captured at creation time, which is
the contract's "entry includes the owning user's username via join". -/
def get_score_by_id (db : MockDB) (score_id : Nat) : Option ScoreEntry :=
  db.scores.find? (fun s => decide (s.id = score_id))

/-- The `/auth/signup` route of `app/routers/auth.py`, restricted to its
store interaction: reject with HTTP 409 (`ConflictError`) when the email,
then the username, already exists, and only otherwise call `create_user`.
Token issuance and response shaping are collaborator glue and omitted. -/
def signup (db : MockDB) (username email password : String) : Except DbError Nat × MockDB :=
  if email_exists db email then (Except.error DbError.conflict, db)
  else if username_exists db username then (Except.error DbError.conflict, db)
  else
    let r := create_user db username email password
    (Except.ok r.fst, r.snd)

end MockDatabase

/-- The empty store (`MockDatabase(initialize_test_data=False)`). -/
def db0 : MockDB :=
  { users := [], users_by_email := [], users_by_username := [],
    scores := [], next_user_id := 1, next_score_id := 1 }

/-- One user `alice`, created through `create_user`. -/
def dbU : MockDB := (MockDatabase.create_user db0 "alice" "alice@example.com" "pw123456").snd

/-- `alice` plus one WALL score of 850 created at clock 100. -/
def dbS1 : MockDB := (MockDatabase.create_score dbU 1 850 GameMode.wall none 100).snd

/-- `dbS1` plus a later PASS score of 750 created at clock 200. -/
def dbS2 : MockDB := (MockDatabase.create_score dbS1 1 750 GameMode.pass none 200).snd

example : dbS2.scores.map ScoreEntry.score = [850, 750] := by decide

example : (MockDatabase.get_scores dbS2 none none).fst.map ScoreEntry.rank
    = [some 1, some 2] := by decide

namespace MockDatabase

/-- Inserting into the sorted list is a permutation of consing. -/
theorem insertScoreDesc_perm (e : ScoreEntry) (l : List ScoreEntry) :
    (insertScoreDesc e l).Perm (e :: l) := by
  induction l with
  | nil => exact List.Perm.refl _
  | cons x xs ih =>
    unfold insertScoreDesc
    split
    · exact List.Perm.refl _
    · exact (List.Perm.cons x ih).trans (List.Perm.swap e x xs)

/-- The stable sort permutes its input. -/
theorem sortScoresDesc_perm (l : List ScoreEntry) : (sortScoresDesc l).Perm l := by
  induction l with
  | nil => exact List.Perm.refl _
  | cons x xs ih =>
    exact (insertScoreDesc_perm x (sortScoresDesc xs)).trans (List.Perm.cons x ih)

theorem mem_sortScoresDesc {e : ScoreEntry} {l : List ScoreEntry} :
    e ∈ sortScoresDesc l ↔ e ∈ l :=
  (sortScoresDesc_perm l).mem_iff

theorem mem_insertScoreDesc {a e : ScoreEntry} {l : List ScoreEntry} :
    a ∈ insertScoreDesc e l ↔ a = e ∨ a ∈ l := by
  rw [(insertScoreDesc_perm e l).mem_iff, List.mem_cons]

/-- Inserting preserves the non-increasing-by-score invariant. -/
theorem pairwise_insertScoreDesc (e : ScoreEntry) (l : List ScoreEntry)
    (h : l.Pairwise fun a b => b.score ≤ a.score) :
    (insertScoreDesc e l).Pairwise fun a b => b.score ≤ a.score := by
  induction l with
  | nil => simp [insertScoreDesc]
  | cons x xs ih =>
    rw [List.pairwise_cons] at h
    unfold insertScoreDesc
    split
    · rename_i hle
      rw [scoreDescLE, decide_eq_true_eq] at hle
      refine List.pairwise_cons.mpr ⟨?_, List.pairwise_cons.mpr ⟨h.1, h.2⟩⟩
      intro b hb
      rcases List.mem_cons.mp hb with hb | hb
      · exact hb ▸ hle
      · exact le_trans (h.1 b hb) hle
    · rename_i hgt
      rw [scoreDescLE, decide_eq_true_eq] at hgt
      refine List.pairwise_cons.mpr ⟨?_, ih h.2⟩
      intro b hb
      rcases mem_insertScoreDesc.mp hb with hb | hb
      · exact hb ▸ le_of_not_le hgt
      · exact h.1 b hb

/-- The sorted list is non-increasing by `score`. -/
theorem sortScoresDesc_pairwise (l : List ScoreEntry) :
    (sortScoresDesc l).Pairwise fun a b => b.score ≤ a.score := by
  induction l with
  | nil => simp [sortScoresDesc]
  | cons x xs ih => exact pairwise_insertScoreDesc x (sortScoresDesc xs) ih

theorem length_addRanks (l : List ScoreEntry) : (addRanks l).length = l.length := by
  simp [addRanks]

theorem get_addRanks (l : List ScoreEntry) (i : Nat) (h : i < l.length)
    (h2 : i < (addRanks l).length) :
    (addRanks l).get ⟨i, h2⟩ = { l.get ⟨i, h⟩ with rank := some (i + 1) } := by
  simp [addRanks, List.get_eq_getElem, List.getElem_zipWith, List.getElem_range']
  omega

/-- Whatever limit is passed, the result is a prefix (`take`) of the
pre-limit sequence. -/
theorem applyLimit_eq_take (l : List ScoreEntry) (limit : Option Int) :
    ∃ n, applyLimit l limit = l.take n := by
  match limit with
  | none => exact ⟨l.length, (List.take_length l).symm⟩
  | some k =>
    by_cases hk : k = 0
    · exact ⟨l.length, by simp [applyLimit, hk, List.take_length]⟩
    · by_cases hk2 : 0 ≤ k
      · exact ⟨k.toNat, by simp [applyLimit, hk, pySliceTo, hk2]⟩
      · exact ⟨l.length - (-k).toNat, by simp [applyLimit, hk, pySliceTo, hk2]⟩

theorem get_scores_fst (db : MockDB) (limit : Option Int) (mode : Option GameMode) :
    (get_scores db limit mode).fst = applyLimit (rankedScores db mode) limit := rfl

theorem length_rankedScores (db : MockDB) (mode : Option GameMode) :
    (rankedScores db mode).length = (sortedScores db mode).length :=
  length_addRanks _

/-- Entry `i` of the pre-limit ranked sequence carries rank `i + 1`. -/
theorem rank_rankedScores (db : MockDB) (mode : Option GameMode) (i : Nat)
    (h : i < (rankedScores db mode).length) :
    ((rankedScores db mode).get ⟨i, h⟩).rank = some (i + 1) := by
  have h' : i < (sortedScores db mode).length := by
    rw [← length_rankedScores db mode]; exact h
  exact congrArg ScoreEntry.rank (get_addRanks (sortedScores db mode) i h' h)

/-- The ranked pre-limit sequence is non-increasing by `score`. -/
theorem rankedScores_pairwise (db : MockDB) (mode : Option GameMode) :
    (rankedScores db mode).Pairwise fun a b => b.score ≤ a.score := by
  have hs := sortScoresDesc_pairwise (filteredScores db mode)
  rw [List.pairwise_iff_getElem] at hs ⊢
  intro i j hi hj hij
  have hi' : i < (sortedScores db mode).length := by
    rw [← length_rankedScores db mode]; exact hi
  have hj' : j < (sortedScores db mode).length := by
    rw [← length_rankedScores db mode]; exact hj
  have ei : (rankedScores db mode)[i] =
      { (sortedScores db mode).get ⟨i, hi'⟩ with rank := some (i + 1) } := by
    rw [← List.get_eq_getElem (rankedScores db mode) ⟨i, hi⟩]
    exact get_addRanks (sortedScores db mode) i hi' hi
  have ej : (rankedScores db mode)[j] =
      { (sortedScores db mode).get ⟨j, hj'⟩ with rank := some (j + 1) } := by
    rw [← List.get_eq_getElem (rankedScores db mode) ⟨j, hj⟩]
    exact get_addRanks (sortedScores db mode) j hj' hj
  rw [ei, ej]
  exact hs i j hi' hj' hij

end MockDatabase

namespace MockDatabase

theorem length_sortScoresDesc (l : List ScoreEntry) : (sortScoresDesc l).length = l.length :=
  (sortScoresDesc_perm l).length_eq

theorem get_take_eq (l : List ScoreEntry) (n i : Nat) (hi : i < (l.take n).length)
    (h2 : i < l.length) : (l.take n).get ⟨i, hi⟩ = l.get ⟨i, h2⟩ := by
  simp [List.get_eq_getElem, List.getElem_take]

theorem get_congr (l l' : List ScoreEntry) (h : l = l') (i : Nat) (hi : i < l.length)
    (hi' : i < l'.length) : l.get ⟨i, hi⟩ = l'.get ⟨i, hi'⟩ := by
  subst h
  rfl

/-- An entry of the ranked sequence is an entry of the underlying list
with only its `rank` field rewritten — all other fields agree. -/
theorem mode_of_mem_addRanks {e : ScoreEntry} {l : List ScoreEntry} (h : e ∈ addRanks l) :
    ∃ x ∈ l, e.mode = x.mode := by
  rw [List.mem_iff_getElem] at h
  obtain ⟨i, hi, hei⟩ := h
  have hi' : i < l.length := by
    rw [length_addRanks] at hi
    exact hi
  refine ⟨l.get ⟨i, hi'⟩, List.get_mem l i hi', ?_⟩
  rw [← hei, ← List.get_eq_getElem (addRanks l) ⟨i, hi⟩, get_addRanks l i hi' hi]

end MockDatabase

/-- C1: every result sequence of `get_scores` is non-increasing in
`score`; each returned entry equals the entry at the same position of the
sorted, mode-filtered, pre-limit ranked sequence, and position `i`
(0-based) of that pre-limit sequence carries rank `i + 1` — so every
returned entry's rank is its 1-based position in the sorted, filtered,
pre-limit sequence. -/
theorem c1_getScores_sorted_ranked (db : MockDB) (limit : Option Int)
    (mode : Option GameMode) :
    (∀ i j (hi : i < (MockDatabase.get_scores db limit mode).fst.length)
        (hj : j < (MockDatabase.get_scores db limit mode).fst.length), i ≤ j →
      ((MockDatabase.get_scores db limit mode).fst.get ⟨j, hj⟩).score ≤
        ((MockDatabase.get_scores db limit mode).fst.get ⟨i, hi⟩).score) ∧
    (∀ i (hi : i < (MockDatabase.get_scores db limit mode).fst.length),
      ∃ hr : i < (MockDatabase.rankedScores db mode).length,
        (MockDatabase.get_scores db limit mode).fst.get ⟨i, hi⟩ =
          (MockDatabase.rankedScores db mode).get ⟨i, hr⟩) ∧
    (∀ i (hr : i < (MockDatabase.rankedScores db mode).length),
      ((MockDatabase.rankedScores db mode).get ⟨i, hr⟩).rank = some (i + 1)) := by
  obtain ⟨n, hn⟩ := MockDatabase.applyLimit_eq_take (MockDatabase.rankedScores db mode) limit
  have hres : (MockDatabase.get_scores db limit mode).fst
      = (MockDatabase.rankedScores db mode).take n := by
    rw [MockDatabase.get_scores_fst, hn]
  have hlen : ∀ i, i < (MockDatabase.get_scores db limit mode).fst.length →
      i < (MockDatabase.rankedScores db mode).length := by
    intro i hi
    rw [hres, List.length_take] at hi
    omega
  have hget : ∀ i (hi : i < (MockDatabase.get_scores db limit mode).fst.length),
      (MockDatabase.get_scores db limit mode).fst.get ⟨i, hi⟩
        = (MockDatabase.rankedScores db mode).get ⟨i, hlen i hi⟩ := by
    intro i hi
    have hi' : i < ((MockDatabase.rankedScores db mode).take n).length := by
      rw [← hres]
      exact hi
    exact (MockDatabase.get_congr _ _ hres i hi hi').trans
      (MockDatabase.get_take_eq _ n i hi' (hlen i hi))
  refine ⟨?_, ?_, ?_⟩
  · intro i j hi hj hij
    rcases Nat.lt_or_ge i j with hlt | hge
    · rw [hget i hi, hget j hj]
      have hp := List.pairwise_iff_getElem.mp (MockDatabase.rankedScores_pairwise db mode)
        i j (hlen i hi) (hlen j hj) hlt
      simpa [List.get_eq_getElem] using hp
    · have hij' : i = j := Nat.le_antisymm hij hge
      subst hij'
      exact le_refl _
  · intro i hi
    exact ⟨hlen i hi, hget i hi⟩
  · intro i hr
    exact MockDatabase.rank_rankedScores db mode i hr

/-- C1 witness: in the two-score store `dbS2`, the second returned entry
scores no more than the first. -/
theorem c1_witness :
    ((MockDatabase.get_scores dbS2 none none).fst.get ⟨1, by decide⟩).score ≤
      ((MockDatabase.get_scores dbS2 none none).fst.get ⟨0, by decide⟩).score :=
  (c1_getScores_sorted_ranked dbS2 none none).1 0 1 (by decide) (by decide) (by decide)

/-- C2: with a mode filter, every entry `get_scores` returns carries
exactly that mode. -/
theorem c2_getScores_mode (db : MockDB) (limit : Option Int) (m : GameMode) :
    ∀ e ∈ (MockDatabase.get_scores db limit (some m)).fst, e.mode = m := by
  intro e he
  obtain ⟨n, hn⟩ := MockDatabase.applyLimit_eq_take (MockDatabase.rankedScores db (some m)) limit
  rw [MockDatabase.get_scores_fst, hn] at he
  have he2 : e ∈ MockDatabase.rankedScores db (some m) := List.mem_of_mem_take he
  obtain ⟨x, hx, hmode⟩ := MockDatabase.mode_of_mem_addRanks he2
  have hx2 : x ∈ MockDatabase.filteredScores db (some m) :=
    MockDatabase.mem_sortScoresDesc.mp hx
  have := (List.mem_filter.mp hx2).2
  rw [decide_eq_true_eq] at this
  exact hmode.trans this

/-- C2 witness: the WALL entry of `dbS2` reported by
`get_scores(mode=WALL)` has mode WALL. -/
theorem c2_witness :
    ({ id := 1, userId := 1, username := "alice", score := 850,
       mode := GameMode.wall, timestamp := 100, rank := some 1 } : ScoreEntry).mode
      = GameMode.wall :=
  c2_getScores_mode dbS2 none GameMode.wall _ (by decide)

/-- C9: at the store interface, `limit = 0` is falsy in `if limit:` and
is treated as absent — the full ranked, mode-filtered sequence is
returned (one entry per filtered stored score, not the empty list). -/
theorem c9_limit_zero_full (db : MockDB) (mode : Option GameMode) :
    (MockDatabase.get_scores db (some 0) mode).fst = MockDatabase.rankedScores db mode ∧
    (MockDatabase.get_scores db (some 0) mode).fst
      = (MockDatabase.get_scores db none mode).fst ∧
    (MockDatabase.get_scores db (some 0) mode).fst.length
      = (MockDatabase.filteredScores db mode).length := by
  have h0 : (MockDatabase.get_scores db (some 0) mode).fst
      = MockDatabase.rankedScores db mode := by
    simp [MockDatabase.get_scores, MockDatabase.applyLimit]
  refine ⟨h0, h0.trans ?_, ?_⟩
  · simp [MockDatabase.get_scores, MockDatabase.applyLimit]
  · rw [h0, MockDatabase.length_rankedScores, MockDatabase.sortedScores,
      MockDatabase.length_sortScoresDesc]

/-- C3 counterexample: the claim quantifies over every supplied limit
`k`, but at `k = 0` the guard `if limit:` treats the limit as absent, so
on a store holding one score the call returns one entry, not at most
zero. -/
theorem c3_counterexample :
    ¬ ((MockDatabase.get_scores dbS1 (some 0) none).fst.length ≤ 0) := by decide

/-- C3 (amended): for every positive limit `k`, `get_scores` returns the
first `k` entries of the ranked, mode-filtered, pre-limit sequence — at
most `k` entries, the `k` highest-scoring ones (every dropped entry
scores no more than every kept one), with ranks preserved as computed
before truncation. -/
theorem c3_getScores_limit_pos (db : MockDB) (k : Int) (hk : 0 < k)
    (mode : Option GameMode) :
    (MockDatabase.get_scores db (some k) mode).fst
      = (MockDatabase.rankedScores db mode).take k.toNat ∧
    (MockDatabase.get_scores db (some k) mode).fst.length ≤ k.toNat ∧
    (∀ e ∈ (MockDatabase.rankedScores db mode).drop k.toNat,
      ∀ f ∈ (MockDatabase.get_scores db (some k) mode).fst, e.score ≤ f.score) := by
  have hk0 : k ≠ 0 := by omega
  have hk2 : (0 : Int) ≤ k := le_of_lt hk
  have h1 : (MockDatabase.get_scores db (some k) mode).fst
      = (MockDatabase.rankedScores db mode).take k.toNat := by
    rw [MockDatabase.get_scores_fst]
    simp [MockDatabase.applyLimit, hk0, MockDatabase.pySliceTo, hk2]
  refine ⟨h1, ?_, ?_⟩
  · rw [h1, List.length_take]
    exact inf_le_left
  · intro e he f hf
    rw [h1] at hf
    rw [List.mem_iff_getElem] at he hf
    obtain ⟨i, hi, hei⟩ := he
    obtain ⟨j, hj, hfj⟩ := hf
    have hi2 : k.toNat + i < (MockDatabase.rankedScores db mode).length := by
      rw [List.length_drop] at hi
      omega
    have hj1 : j < k.toNat ⊓ (MockDatabase.rankedScores db mode).length := by
      rw [List.length_take] at hj
      exact hj
    have hj2 : j < (MockDatabase.rankedScores db mode).length :=
      lt_of_lt_of_le hj1 inf_le_right
    have hj3 : j < k.toNat + i := by
      have := lt_of_lt_of_le hj1 inf_le_left
      omega
    have he2 : e = (MockDatabase.rankedScores db mode)[k.toNat + i] := by
      rw [← hei, List.getElem_drop]
    have hf2 : f = (MockDatabase.rankedScores db mode)[j] := by
      rw [← hfj, List.getElem_take]
    rw [he2, hf2]
    exact List.pairwise_iff_getElem.mp (MockDatabase.rankedScores_pairwise db mode)
      j (k.toNat + i) hj2 hi2 hj3

/-- C3 witness: with limit 1 on the two-score store `dbS2`, the result is
the first element of the pre-limit ranked sequence. -/
theorem c3_witness :
    (MockDatabase.get_scores dbS2 (some 1) none).fst
      = (MockDatabase.rankedScores dbS2 none).take (Int.toNat 1) :=
  (c3_getScores_limit_pos dbS2 1 (by decide) none).1

/-- C4: failing input for the claim that stored records are unchanged by
`get_scores`. On a store holding one score whose dict has no `"rank"`
key, a single `get_scores()` call writes `rank = 1` into the stored
record itself (the sorted list holds aliases of the stored dicts), so the
record is not field-for-field identical before and after the call. -/
theorem c4_rank_written_into_store :
    dbS1.scores.map ScoreEntry.rank = [none] ∧
    (MockDatabase.get_scores dbS1 none none).snd.scores.map ScoreEntry.rank
      = [some 1] := by decide

/-- C7 counterexample: in `dbS2` user 1 has a score created at clock 100
and a later one at clock 200; `get_user_scores` returns them oldest
first, refuting "ordered by recency descending (most recently created
first)". -/
theorem c7_counterexample :
    ¬ (∀ i j (hi : i < (MockDatabase.get_user_scores dbS2 1).length)
        (hj : j < (MockDatabase.get_user_scores dbS2 1).length), i ≤ j →
      ((MockDatabase.get_user_scores dbS2 1).get ⟨j, hj⟩).timestamp ≤
        ((MockDatabase.get_user_scores dbS2 1).get ⟨i, hi⟩).timestamp) := fun h =>
  absurd (h 0 1 (by decide) (by decide) (by decide)) (by decide)

/-- C7 (amended): `get_user_scores` returns exactly the stored entries
whose `userId` matches — every returned entry matches, every matching
stored entry is returned — in the store's insertion order (a sublist of
the stored sequence, i.e. creation order, oldest first), not recency
descending. -/
theorem c7_getUserScores_exact_insertion_order (db : MockDB) (uid : Nat) :
    (∀ e ∈ MockDatabase.get_user_scores db uid, e.userId = uid) ∧
    (∀ e ∈ db.scores, e.userId = uid → e ∈ MockDatabase.get_user_scores db uid) ∧
    (MockDatabase.get_user_scores db uid).Sublist db.scores := by
  refine ⟨?_, ?_, List.filter_sublist db.scores⟩
  · intro e he
    have := (List.mem_filter.mp he).2
    rwa [decide_eq_true_eq] at this
  · intro e he huid
    exact List.mem_filter.mpr ⟨he, decide_eq_true huid⟩

/-- C7 witness: the first stored score of `dbS2` is returned for user 1
and carries `userId = 1`. -/
theorem c7_witness :
    ({ id := 1, userId := 1, username := "alice", score := 850,
       mode := GameMode.wall, timestamp := 100, rank := none } : ScoreEntry).userId = 1 :=
  (c7_getUserScores_exact_insertion_order dbS2 1).1 _ (by decide)

/-- C5: creating a score for a user id that resolves to no stored user
fails with the not-found error and adds no score record — the score map
and the user map are exactly as before (only the id counter advanced, as
the source increments it before the check). -/
theorem c5_createScore_unknown_user (db : MockDB) (uid : Nat) (s : Int)
    (m : GameMode) (ts : Option Int) (now : Int)
    (h : MockDatabase.get_user_by_id db uid = none) :
    (MockDatabase.create_score db uid s m ts now).fst
      = Except.error MockDatabase.DbError.notFound ∧
    (MockDatabase.create_score db uid s m ts now).snd.scores = db.scores ∧
    (MockDatabase.create_score db uid s m ts now).snd.users = db.users := by
  have h1 : MockDatabase.get_user_by_id
      { db with next_score_id := db.next_score_id + 1 } uid = none := h
  simp [MockDatabase.create_score, h1]

/-- C5 witness: on the empty store, creating a score for user 1 fails
with not-found and leaves the score store empty. -/
theorem c5_witness :
    (MockDatabase.create_score db0 1 10 GameMode.wall none 0).fst
      = Except.error MockDatabase.DbError.notFound ∧
    (MockDatabase.create_score db0 1 10 GameMode.wall none 0).snd.scores = db0.scores ∧
    (MockDatabase.create_score db0 1 10 GameMode.wall none 0).snd.users = db0.users :=
  c5_createScore_unknown_user db0 1 10 GameMode.wall none 0 (by decide)

/-- Writing a binding makes its key readable with the written value. -/
theorem dictLookup_dictInsert_self (l : List (String × Nat)) (k : String) (v : Nat) :
    dictLookup (dictInsert l k v) k = some v := by
  induction l with
  | nil => simp [dictInsert, dictLookup]
  | cons q rest ih =>
    obtain ⟨k', v'⟩ := q
    by_cases hk : k' = k
    · simp [dictInsert, dictLookup, hk]
    · simp [dictInsert, dictLookup, hk, ih]

/-- C6: after any `create_user`, the used email and username read as
existing forever (index keys are never removed), and a signup whose email
or username already exists fails with the conflict error, returning the
store unchanged — no new user record is created. -/
theorem c6_signup_duplicate_conflict (db : MockDB) (u e p : String) :
    (∀ u' e' p',
      MockDatabase.email_exists (MockDatabase.create_user db u' e' p').snd e' = true ∧
      MockDatabase.username_exists (MockDatabase.create_user db u' e' p').snd u' = true) ∧
    ((MockDatabase.email_exists db e = true ∨ MockDatabase.username_exists db u = true) →
      MockDatabase.signup db u e p = (Except.error MockDatabase.DbError.conflict, db)) := by
  constructor
  · intro u' e' p'
    constructor
    · simp [MockDatabase.email_exists, MockDatabase.create_user, dictLookup_dictInsert_self]
    · simp [MockDatabase.username_exists, MockDatabase.create_user, dictLookup_dictInsert_self]
  · intro h
    by_cases he : MockDatabase.email_exists db e = true
    · simp [MockDatabase.signup, he]
    · have hu : MockDatabase.username_exists db u = true := h.resolve_left he
      simp [MockDatabase.signup, he, hu]

/-- C6 witness: signing up with the already-used username `alice` fails
with the conflict error and leaves the store unchanged. -/
theorem c6_witness :
    MockDatabase.signup dbU "alice" "other@example.com" "pw999999"
      = (Except.error MockDatabase.DbError.conflict, dbU) :=
  (c6_signup_duplicate_conflict dbU "alice" "other@example.com" "pw999999").2
    (Or.inr (by decide))

/-- Inserting a record whose id differs from `n` does not change what an
id-`n` lookup finds. -/
theorem find?_usersInsert_ne (l : List UserRec) (u : UserRec) (n : Nat)
    (hne : u.id ≠ n) :
    (usersInsert l u).find? (fun x => decide (x.id = n))
      = l.find? (fun x => decide (x.id = n)) := by
  induction l with
  | nil =>
    simp [usersInsert, List.find?, hne]
  | cons u' rest ih =>
    rw [usersInsert]
    split
    · rename_i h
      have h1 : decide (u.id = n) = false := by simp [hne]
      have h2 : decide (u'.id = n) = false := by simp [h, hne]
      rw [List.find?_cons, List.find?_cons, h1, h2]
    · rename_i h
      rw [List.find?_cons, List.find?_cons]
      by_cases h2 : u'.id = n
      · rw [decide_eq_true h2]
      · rw [decide_eq_false h2]
        exact ih

/-- C10: the store-level `create_user` never rejects: called while the
username or email is already bound to an older user, it still returns the
fresh id `next_user_id`, bumps the counter, repoints both lookup indexes
at the new id, and keeps the older user record readable by id — while the
overwritten indexes now resolve to the new id, which differs from the old
one. -/
theorem c10_createUser_never_rejects (db : MockDB) (u e p : String) (oldId : Nat)
    (_hold : dictLookup db.users_by_username u = some oldId ∨
      dictLookup db.users_by_email e = some oldId)
    (hlt : oldId < db.next_user_id) :
    (MockDatabase.create_user db u e p).fst = db.next_user_id ∧
    (MockDatabase.create_user db u e p).snd.next_user_id = db.next_user_id + 1 ∧
    dictLookup (MockDatabase.create_user db u e p).snd.users_by_email e
      = some db.next_user_id ∧
    dictLookup (MockDatabase.create_user db u e p).snd.users_by_username u
      = some db.next_user_id ∧
    MockDatabase.get_user_by_id (MockDatabase.create_user db u e p).snd oldId
      = MockDatabase.get_user_by_id db oldId ∧
    oldId ≠ db.next_user_id := by
  refine ⟨rfl, rfl, dictLookup_dictInsert_self db.users_by_email e db.next_user_id,
    dictLookup_dictInsert_self db.users_by_username u db.next_user_id, ?_, by omega⟩
  exact find?_usersInsert_ne db.users
    { id := db.next_user_id, username := u, email := e, password_hash := p } oldId
    (show db.next_user_id ≠ oldId by omega)

/-- C10 witness: re-creating `alice` on `dbU` yields id 2, the username
index now resolves to 2, and user 1's record is still readable by id. -/
theorem c10_witness :
    dictLookup
      ((MockDatabase.create_user dbU "alice" "alice@example.com" "pw2pw2pw").snd.users_by_username)
      "alice" = some 2 ∧
    MockDatabase.get_user_by_id
      (MockDatabase.create_user dbU "alice" "alice@example.com" "pw2pw2pw").snd 1
      = MockDatabase.get_user_by_id dbU 1 := by
  have h := c10_createUser_never_rejects dbU "alice" "alice@example.com" "pw2pw2pw" 1
    (Or.inl (by decide)) (by decide)
  exact ⟨h.2.2.2.1, h.2.2.2.2.1⟩

/-- Inserting an entry whose id is not yet in the store appends it. -/
theorem scoresInsert_of_new (l : List ScoreEntry) (e : ScoreEntry)
    (h : ∀ x ∈ l, x.id ≠ e.id) : scoresInsert l e = l ++ [e] := by
  induction l with
  | nil => simp [scoresInsert]
  | cons x rest ih =>
    have hx : ¬ (x.id = e.id) := h x (List.mem_cons_self x rest)
    rw [scoresInsert, if_neg hx, ih (fun y hy => h y (List.mem_cons_of_mem x hy)),
      List.cons_append]

/-- C8: round-trip through the score store. Creating a score for an
existing user returns the fresh id `next_score_id`, and `get_score_by_id`
on that id recovers an entry whose `score`, `mode`, `userId` and
`username` (the owning user's username at creation time) are exactly the
submitted values; and any id at or above the post-call counter — an id
never returned by `create_score` — yields not-found. The hypothesis that
stored ids stay below the counter holds in every reachable store. -/
theorem c8_createScore_getScoreById_roundtrip (db : MockDB) (uid : Nat) (s : Int)
    (m : GameMode) (ts : Option Int) (now : Int) (u : UserRec)
    (hu : MockDatabase.get_user_by_id db uid = some u)
    (hids : ∀ x ∈ db.scores, x.id < db.next_score_id) :
    ((MockDatabase.create_score db uid s m ts now).fst = Except.ok db.next_score_id ∧
      ∃ entry, MockDatabase.get_score_by_id
          (MockDatabase.create_score db uid s m ts now).snd db.next_score_id
          = some entry ∧
        entry.score = s ∧ entry.mode = m ∧ entry.userId = uid ∧
        entry.username = u.username) ∧
    (∀ j, (MockDatabase.create_score db uid s m ts now).snd.next_score_id ≤ j →
      MockDatabase.get_score_by_id (MockDatabase.create_score db uid s m ts now).snd j
        = none) := by
  have hu1 : MockDatabase.get_user_by_id
      { db with next_score_id := db.next_score_id + 1 } uid = some u := hu
  have hnew : ∀ (tsv : Int) (x : ScoreEntry), x ∈ db.scores →
      x.id ≠ (⟨db.next_score_id, uid, u.username, s, m, tsv, none⟩ : ScoreEntry).id :=
    fun _ x hx => Nat.ne_of_lt (hids x hx)
  have hscores : ∃ tsv : Int, (MockDatabase.create_score db uid s m ts now).snd.scores
      = db.scores ++ [(⟨db.next_score_id, uid, u.username, s, m, tsv, none⟩ : ScoreEntry)] := by
    cases ts with
    | none =>
      exact ⟨now, by
        simp [MockDatabase.create_score, hu1,
          scoresInsert_of_new db.scores _ (hnew now)]⟩
    | some t =>
      exact ⟨t, by
        simp [MockDatabase.create_score, hu1,
          scoresInsert_of_new db.scores _ (hnew t)]⟩
  obtain ⟨tsv, hscores⟩ := hscores
  have hfst : (MockDatabase.create_score db uid s m ts now).fst
      = Except.ok db.next_score_id := by
    cases ts <;> simp [MockDatabase.create_score, hu1]
  have hcount : (MockDatabase.create_score db uid s m ts now).snd.next_score_id
      = db.next_score_id + 1 := by
    cases ts <;> simp [MockDatabase.create_score, hu1]
  have hnone : db.scores.find? (fun x => decide (x.id = db.next_score_id)) = none :=
    List.find?_eq_none.mpr (fun x hx => by
      simp only [decide_eq_true_eq]
      exact Nat.ne_of_lt (hids x hx))
  refine ⟨⟨hfst, ?_⟩, ?_⟩
  · refine ⟨(⟨db.next_score_id, uid, u.username, s, m, tsv, none⟩ : ScoreEntry),
      ?_, rfl, rfl, rfl, rfl⟩
    rw [MockDatabase.get_score_by_id, hscores, List.find?_append, hnone, Option.none_or,
      List.find?_cons, decide_eq_true rfl]
  · intro j hj
    rw [hcount] at hj
    rw [MockDatabase.get_score_by_id, hscores]
    refine List.find?_eq_none.mpr (fun x hx => ?_)
    simp only [decide_eq_true_eq]
    rcases List.mem_append.mp hx with hx | hx
    · have := hids x hx
      omega
    · rw [List.mem_singleton] at hx
      subst hx
      show ¬ (db.next_score_id = j)
      omega

/-- C8 witness: after creating a WALL score of 500 for `alice`, the id 3
(never returned by any `create_score`) reads as not-found. -/
theorem c8_witness :
    MockDatabase.get_score_by_id
      (MockDatabase.create_score dbU 1 500 GameMode.wall none 300).snd 3 = none :=
  (c8_createScore_getScoreById_roundtrip dbU 1 500 GameMode.wall none 300
    { id := 1, username := "alice", email := "alice@example.com",
      password_hash := "pw123456" }
    (by decide) (by decide)).2 3 (by decide)
